import Mathlib

/-!
Verification development for the alt-text scanning pipeline: a shallow
embedding of the caption sanitation logic, the retry/backoff services,
the dead-letter queue operations, the scan-history records and the scan
orchestrator loop, together with theorems about their behaviour.

Strings are modelled as `List Char`; timestamps as natural numbers
(milliseconds); the external provider, image host and catalog platform
are modelled as oracles passed in as functions.
-/

/-! ## Character classes used by the sanitation regexes -/

/-- Whitespace characters matched by the regex class in the source
(`\s`, restricted to its ASCII members). -/
def isWs (c : Char) : Bool :=
  c = ' ' || c = '\t' || c = '\n' || c = '\r' || c = '\x0b' || c = '\x0c'

/-- Quote characters stripped from caption boundaries
(the character class of the source regex). -/
def isQuote (c : Char) : Bool :=
  c = '\'' || c = '"'

/-! ## Sanitation pipeline of `generateAltText` (gemini.server, lines 52-63) -/

/-- Model of JavaScript `String.prototype.trim`: remove leading and
trailing whitespace. -/
def trimChars (s : List Char) : List Char :=
  ((s.dropWhile isWs).reverse.dropWhile isWs).reverse

/-- Model of `alt.replace(/^['\"]+|['\"]+$/g, "")`: remove the leading
run and the trailing run of quote characters. -/
def stripQuotes (s : List Char) : List Char :=
  ((s.dropWhile isQuote).reverse.dropWhile isQuote).reverse

/-- Worker for whitespace collapsing; the boolean records whether the
previously consumed character was whitespace (in which case the current
whitespace character belongs to an already-replaced run). -/
def collapseAux : Bool → List Char → List Char
  | _, [] => []
  | prevWs, c :: cs =>
    if isWs c then
      if prevWs then collapseAux true cs
      else ' ' :: collapseAux true cs
    else c :: collapseAux false cs

/-- Model of `alt.replace(/\s+/g, ' ')`: every maximal whitespace run is
replaced by a single space. -/
def collapseWs (s : List Char) : List Char :=
  collapseAux false s

/-- The quote-stripping / whitespace-normalising part of the sanitation:
`text().trim()`, strip boundary quotes, collapse whitespace, `trim()`. -/
def normalizeCaption (raw : List Char) : List Char :=
  trimChars (collapseWs (stripQuotes (trimChars raw)))

/-- Full caption sanitation of `generateAltText`: normalisation followed
by the length ceiling, `alt.slice(0, maxLength - 3).trim() + '...'`. -/
def sanitizeCaption (raw : List Char) (maxLength : Nat) : List Char :=
  if maxLength < (normalizeCaption raw).length then
    trimChars ((normalizeCaption raw).take (maxLength - 3)) ++ ['.', '.', '.']
  else normalizeCaption raw

/-! ## Settings (settings.server) -/

/-- The caption length classes of `AltTextLength`. -/
inductive AltTextLength
  | short
  | medium
  | long
deriving DecidableEq

/-- Model of `getMaxLength`: character ceiling per length class. -/
def getMaxLength : AltTextLength → Nat
  | .short => 60
  | .medium => 100
  | .long => 125

/-! ## Backoff policy (retry.server, `calculateBackoffDelay`) -/

/-- Model of `calculateBackoffDelay`: exponential backoff with base
2000ms capped at 300000ms. -/
def calculateBackoffDelay (retryCount : Nat) : Nat :=
  min (2000 * 2 ^ retryCount) 300000

/-! ## Generic list lemmas used by the sanitation proofs -/

theorem length_dropWhile_le_len (p : Char → Bool) (l : List Char) :
    (l.dropWhile p).length ≤ l.length := by
  have h : l.dropWhile p <:+ l := List.dropWhile_suffix p
  exact h.length_le

/-- A list has no leading whitespace when `dropWhile isWs` fixes it. -/
def NoLeadWs (s : List Char) : Prop :=
  s.dropWhile isWs = s

theorem noLeadWs_iff_head (s : List Char) :
    NoLeadWs s ↔ (s = [] ∨ ∃ c cs, s = c :: cs ∧ isWs c = false) := by
  cases s with
  | nil => simp [NoLeadWs]
  | cons c cs =>
    constructor
    · intro h
      right
      refine ⟨c, cs, rfl, ?_⟩
      have h0 : (c :: cs).dropWhile isWs = c :: cs := h
      cases hq : isWs c with
      | false => rfl
      | true =>
        exfalso
        have h2 : (c :: cs).dropWhile isWs = cs.dropWhile isWs := by
          simp [List.dropWhile, hq]
        rw [h2] at h0
        have hle : (cs.dropWhile isWs).length ≤ cs.length :=
          length_dropWhile_le_len isWs cs
        rw [h0] at hle
        simp at hle
    · rintro (h | ⟨d, ds, heq, hd⟩)
      · simp at h
      · have h1 : c = d := by injection heq
        have hc : isWs c = false := by rw [h1]; exact hd
        show (c :: cs).dropWhile isWs = c :: cs
        simp [List.dropWhile, hc]

theorem noLeadWs_dropWhile (s : List Char) : NoLeadWs (s.dropWhile isWs) := by
  induction s with
  | nil => rfl
  | cons c cs ih =>
    cases hq : isWs c with
    | true =>
      have h2 : (c :: cs).dropWhile isWs = cs.dropWhile isWs := by
        simp [List.dropWhile, hq]
      rw [h2]
      exact ih
    | false =>
      have h2 : (c :: cs).dropWhile isWs = c :: cs := by
        simp [List.dropWhile, hq]
      rw [h2, noLeadWs_iff_head]
      exact Or.inr ⟨c, cs, rfl, hq⟩

theorem noLeadWs_of_prefix {u v : List Char} (hu : NoLeadWs u) (hp : v <+: u) :
    NoLeadWs v := by
  rw [noLeadWs_iff_head] at hu ⊢
  cases v with
  | nil => left; rfl
  | cons c cs =>
    right
    obtain ⟨t, ht⟩ := hp
    rcases hu with h | ⟨d, ds, hed, hd⟩
    · rw [← ht] at h; simp at h
    · refine ⟨c, cs, rfl, ?_⟩
      rw [← ht] at hed
      simp at hed
      rw [hed.1]
      exact hd

/-- Dropping a trailing run (via reverse) yields a prefix. -/
theorem reverse_dropWhile_reverse_prefix (p : Char → Bool) (v : List Char) :
    (v.reverse.dropWhile p).reverse <+: v := by
  have h : v.reverse.dropWhile p <:+ v.reverse := List.dropWhile_suffix p
  have h2 : (v.reverse.dropWhile p).reverse <+: v.reverse.reverse := by
    exact List.reverse_prefix.mpr h
  simpa using h2

theorem trimChars_of_noLeadWs {v : List Char} (hv : NoLeadWs v) :
    trimChars v = (v.reverse.dropWhile isWs).reverse := by
  unfold trimChars
  rw [hv]

theorem trimChars_prefix_of_noLeadWs {v : List Char} (hv : NoLeadWs v) :
    trimChars v <+: v := by
  rw [trimChars_of_noLeadWs hv]
  exact reverse_dropWhile_reverse_prefix isWs v

theorem noLeadWs_trimChars (s : List Char) : NoLeadWs (trimChars s) := by
  have h1 : NoLeadWs (s.dropWhile isWs) := noLeadWs_dropWhile s
  have h2 : trimChars s <+: s.dropWhile isWs := by
    unfold trimChars
    exact reverse_dropWhile_reverse_prefix isWs (s.dropWhile isWs)
  exact noLeadWs_of_prefix h1 h2

theorem noLeadWs_normalizeCaption (raw : List Char) :
    NoLeadWs (normalizeCaption raw) :=
  noLeadWs_trimChars _

theorem trimChars_length_le (s : List Char) :
    (trimChars s).length ≤ s.length := by
  unfold trimChars
  calc ((s.dropWhile isWs).reverse.dropWhile isWs).reverse.length
      = ((s.dropWhile isWs).reverse.dropWhile isWs).length := by
        exact List.length_reverse _
    _ ≤ (s.dropWhile isWs).reverse.length := length_dropWhile_le_len isWs _
    _ = (s.dropWhile isWs).length := List.length_reverse _
    _ ≤ s.length := length_dropWhile_le_len isWs s


/-! ## Cleanliness predicates for caption text -/

/-- Every whitespace character of the list is a plain space. -/
def wsOnlySpace (s : List Char) : Bool :=
  s.all (fun c => !isWs c || c = ' ')

/-- No two adjacent whitespace characters occur in the list. -/
def noAdjWs : List Char → Bool
  | c :: d :: rest => (!(isWs c && isWs d)) && noAdjWs (d :: rest)
  | _ => true

/-- A caption is clean when it is within the ceiling, has no boundary
quotes, no boundary whitespace, and single internal spaces only. -/
def IsCleanCaption (maxLength : Nat) (s : List Char) : Prop :=
  s.length ≤ maxLength ∧
  s.dropWhile isQuote = s ∧
  s.reverse.dropWhile isQuote = s.reverse ∧
  s.dropWhile isWs = s ∧
  s.reverse.dropWhile isWs = s.reverse ∧
  wsOnlySpace s = true ∧
  noAdjWs s = true

instance (maxLength : Nat) (s : List Char) :
    Decidable (IsCleanCaption maxLength s) := by
  unfold IsCleanCaption
  infer_instance

theorem collapseAux_cons (b : Bool) (c : Char) (cs : List Char) :
    collapseAux b (c :: cs) =
      if isWs c then
        (if b then collapseAux true cs else ' ' :: collapseAux true cs)
      else c :: collapseAux false cs := rfl

theorem noAdjWs_cons_cons {c d : Char} {ds : List Char} :
    noAdjWs (c :: d :: ds) = ((!(isWs c && isWs d)) && noAdjWs (d :: ds)) := rfl

theorem noAdjWs_tail {c : Char} {cs : List Char}
    (h : noAdjWs (c :: cs) = true) : noAdjWs cs = true := by
  cases cs with
  | nil => rfl
  | cons d ds =>
    rw [noAdjWs_cons_cons] at h
    exact (Bool.and_eq_true_iff.mp h).2

theorem collapseAux_clean (s : List Char) :
    ∀ b : Bool, wsOnlySpace s = true → noAdjWs s = true →
    (b = true → NoLeadWs s) → collapseAux b s = s := by
  induction s with
  | nil => intro b _ _ _; rfl
  | cons c cs ih =>
    intro b hws hadj hb
    have hws2 : wsOnlySpace cs = true := by
      have h2 := hws
      simp only [wsOnlySpace, List.all_cons, Bool.and_eq_true] at h2
      exact h2.2
    have hwhead : (!isWs c || c = ' ') = true := by
      have h2 := hws
      simp only [wsOnlySpace, List.all_cons, Bool.and_eq_true] at h2
      simpa using h2.1
    have hadj2 : noAdjWs cs = true := noAdjWs_tail hadj
    cases hc : isWs c with
    | false =>
      rw [collapseAux_cons, if_neg (by simp [hc]),
        ih false hws2 hadj2 (by intro h; exact absurd h (by simp))]
    | true =>
      have hbf : b = false := by
        cases b with
        | false => rfl
        | true =>
          exfalso
          have hnl := hb rfl
          rw [noLeadWs_iff_head] at hnl
          rcases hnl with h | ⟨d, ds, hed, hd⟩
          · simp at h
          · have h1 : c = d := by injection hed
            rw [h1, hd] at hc
            simp at hc
      subst hbf
      have hsp : c = ' ' := by
        rw [hc] at hwhead
        simpa using hwhead
      have hnl2 : NoLeadWs cs := by
        rw [noLeadWs_iff_head]
        cases cs with
        | nil => left; rfl
        | cons d ds =>
          right
          refine ⟨d, ds, rfl, ?_⟩
          rw [noAdjWs_cons_cons] at hadj
          have h3 := (Bool.and_eq_true_iff.mp hadj).1
          rw [hc] at h3
          simpa using h3
      rw [collapseAux_cons, if_pos (by simp [hc]), if_neg (by simp),
        ih true hws2 hadj2 (fun _ => hnl2), hsp]

theorem trimChars_of_clean {maxLength : Nat} {s : List Char}
    (h : IsCleanCaption maxLength s) : trimChars s = s := by
  obtain ⟨_, _, _, h4, h5, _, _⟩ := h
  unfold trimChars
  rw [h4, h5, List.reverse_reverse]

theorem normalizeCaption_of_clean {maxLength : Nat} {s : List Char}
    (h : IsCleanCaption maxLength s) : normalizeCaption s = s := by
  obtain ⟨h1, h2, h3, h4, h5, h6, h7⟩ := h
  have htrim : trimChars s = s :=
    @trimChars_of_clean maxLength s ⟨h1, h2, h3, h4, h5, h6, h7⟩
  have hquote : stripQuotes s = s := by
    unfold stripQuotes
    rw [h2, h3, List.reverse_reverse]
  have hcol : collapseWs s = s := by
    unfold collapseWs
    exact collapseAux_clean s false h6 h7 (by intro h; exact absurd h (by simp))
  unfold normalizeCaption
  rw [htrim, hquote, hcol, htrim]

/-- C9: caption sanitation is the identity on captions that are already
within the ceiling, unquoted, boundary-trimmed and single-spaced. -/
theorem caption_sanitation_idempotent (s : List Char) (maxLength : Nat)
    (h : IsCleanCaption maxLength s) : sanitizeCaption s maxLength = s := by
  have hn : normalizeCaption s = s := normalizeCaption_of_clean h
  have h1 : s.length ≤ maxLength := h.1
  unfold sanitizeCaption
  rw [hn, if_neg (by omega)]

/-- Witness for C9 at a concrete clean caption. -/
theorem caption_sanitation_idempotent_witness :
    IsCleanCaption 100 ("Blue snowboard with frost design".toList) ∧
    sanitizeCaption ("Blue snowboard with frost design".toList) 100
      = "Blue snowboard with frost design".toList := by
  constructor
  · decide
  · exact caption_sanitation_idempotent _ 100 (by decide)

/-! ## C1: caption truncation -/

/-- Counterexample to C1 as stated: a normalized caption of length 61
whose 57th character (index 56) is a space. The slice of the first 57
characters ends in that space, the `trim()` inside the truncation branch
removes it, and the sanitized result has length 59, not the ceiling 60. -/
theorem caption_truncation_exact_length_counterexample :
    getMaxLength AltTextLength.short <
      (normalizeCaption (List.replicate 56 'a' ++ [' ', 'b', 'c', 'd', 'e'])).length ∧
    (sanitizeCaption (List.replicate 56 'a' ++ [' ', 'b', 'c', 'd', 'e'])
        (getMaxLength AltTextLength.short)).length
      ≠ getMaxLength AltTextLength.short := by
  constructor
  · decide
  · decide

/-- C1 (amended): when the normalized caption exceeds the configured
ceiling C, the sanitized result ends in an ellipsis, has length at most
C (not always exactly C: the `trim()` applied after the slice can remove
a trailing space and shorten the result), and the characters before the
ellipsis are a prefix of the normalized input. -/
theorem caption_truncation_amended (raw : List Char) (len : AltTextLength)
    (h : getMaxLength len < (normalizeCaption raw).length) :
    (sanitizeCaption raw (getMaxLength len)).length ≤ getMaxLength len ∧
    (sanitizeCaption raw (getMaxLength len)).drop
        ((sanitizeCaption raw (getMaxLength len)).length - 3) = ['.', '.', '.'] ∧
    (sanitizeCaption raw (getMaxLength len)).take
        ((sanitizeCaption raw (getMaxLength len)).length - 3)
      <+: normalizeCaption raw := by
  have hC3 : 3 ≤ getMaxLength len := by cases len <;> simp [getMaxLength]
  have hr : sanitizeCaption raw (getMaxLength len) =
      trimChars ((normalizeCaption raw).take (getMaxLength len - 3))
        ++ ['.', '.', '.'] := by
    unfold sanitizeCaption
    rw [if_pos h]
  have htakelen : ((normalizeCaption raw).take (getMaxLength len - 3)).length
      = getMaxLength len - 3 := by
    rw [List.length_take]
    omega
  have htrimle : (trimChars ((normalizeCaption raw).take (getMaxLength len - 3))).length
      ≤ getMaxLength len - 3 := by
    have h2 := trimChars_length_le ((normalizeCaption raw).take (getMaxLength len - 3))
    omega
  have hlen : (sanitizeCaption raw (getMaxLength len)).length =
      (trimChars ((normalizeCaption raw).take (getMaxLength len - 3))).length + 3 := by
    rw [hr]
    simp
  have happlen : (trimChars ((normalizeCaption raw).take (getMaxLength len - 3))
      ++ ['.', '.', '.']).length
      = (trimChars ((normalizeCaption raw).take (getMaxLength len - 3))).length + 3 := by
    simp
  refine ⟨by omega, ?_, ?_⟩
  · rw [hr, happlen, Nat.add_sub_cancel]
    exact List.drop_left _ _
  · rw [hr, happlen, Nat.add_sub_cancel, List.take_left]
    have hnl : NoLeadWs (normalizeCaption raw) := noLeadWs_normalizeCaption raw
    have hp1 : (normalizeCaption raw).take (getMaxLength len - 3)
        <+: normalizeCaption raw := List.take_prefix _ _
    have hnl2 : NoLeadWs ((normalizeCaption raw).take (getMaxLength len - 3)) :=
      noLeadWs_of_prefix hnl hp1
    exact (trimChars_prefix_of_noLeadWs hnl2).trans hp1

/-- Witness for the amended C1 at a concrete over-long caption. -/
theorem caption_truncation_amended_witness :
    getMaxLength AltTextLength.short <
      (normalizeCaption (List.replicate 64 'a')).length ∧
    ((sanitizeCaption (List.replicate 64 'a') (getMaxLength AltTextLength.short)).length
        ≤ getMaxLength AltTextLength.short ∧
      (sanitizeCaption (List.replicate 64 'a') (getMaxLength AltTextLength.short)).drop
          ((sanitizeCaption (List.replicate 64 'a')
            (getMaxLength AltTextLength.short)).length - 3) = ['.', '.', '.'] ∧
      (sanitizeCaption (List.replicate 64 'a') (getMaxLength AltTextLength.short)).take
          ((sanitizeCaption (List.replicate 64 'a')
            (getMaxLength AltTextLength.short)).length - 3)
        <+: normalizeCaption (List.replicate 64 'a')) :=
  ⟨by decide, caption_truncation_amended (List.replicate 64 'a') AltTextLength.short
    (by decide)⟩

/-! ## C4: backoff policy -/

/-- C4: the backoff policy is the pure total function
min(2000·2^n, 300000); it is monotonically non-decreasing, with
delay(0)=2000, delay(7)=256000 and delay(8)=300000 (clamped). -/
theorem backoff_policy_spec :
    (∀ n, calculateBackoffDelay n = min (2000 * 2 ^ n) 300000) ∧
    (∀ m n, m ≤ n → calculateBackoffDelay m ≤ calculateBackoffDelay n) ∧
    calculateBackoffDelay 0 = 2000 ∧
    calculateBackoffDelay 7 = 256000 ∧
    calculateBackoffDelay 8 = 300000 := by
  refine ⟨fun n => rfl, ?_, by decide, by decide, by decide⟩
  intro m n h
  unfold calculateBackoffDelay
  have hpow : 2000 * 2 ^ m ≤ 2000 * 2 ^ n :=
    Nat.mul_le_mul_left 2000 (Nat.pow_le_pow_right (by omega) h)
  omega

/-- Witness for C4 monotonicity at concrete attempts. -/
theorem backoff_policy_spec_witness :
    calculateBackoffDelay 3 ≤ calculateBackoffDelay 5 :=
  backoff_policy_spec.2.1 3 5 (by decide)

/-! ## Dead-letter / retry queue (retry.server) -/

/-- Status values of a `FailedJob` record. -/
inductive JobStatus
  | pending
  | retrying
  | failed_permanent
deriving DecidableEq

/-- The `FailedJob` record of the dead-letter queue. -/
structure FailedJob where
  shop : List Char
  productId : List Char
  productTitle : List Char
  imageId : List Char
  imageUrl : List Char
  errorMessage : List Char
  retryCount : Nat
  maxRetries : Nat
  nextRetryAt : Nat
  lastAttemptAt : Option Nat
  jobStatus : JobStatus
deriving DecidableEq

/-- Input data of `addFailedJob`; `maxRetries` is the optional
caller-supplied ceiling. -/
structure AddFailedJobData where
  shop : List Char
  productId : List Char
  productTitle : List Char
  imageId : List Char
  imageUrl : List Char
  errorMessage : List Char
  maxRetries : Option Nat
deriving DecidableEq

/-- Model of `addFailedJob`: persist a new job with
`nextRetryAt = now + 60000`, `retryCount = 0`, status pending and
`maxRetries: data.maxRetries || 3` (JavaScript falsy default: an absent
value or an explicit 0 both become 3). -/
def addFailedJob (data : AddFailedJobData) (now : Nat) : FailedJob :=
  { shop := data.shop
    productId := data.productId
    productTitle := data.productTitle
    imageId := data.imageId
    imageUrl := data.imageUrl
    errorMessage := data.errorMessage
    maxRetries := match data.maxRetries with
      | none => 3
      | some m => if m = 0 then 3 else m
    nextRetryAt := now + 60000
    retryCount := 0
    lastAttemptAt := none
    jobStatus := .pending }

/-- Model of `scheduleRetry`: the argument is the result of the
`findUnique` lookup (`none` when the job no longer exists, which throws
"Job not found"); on success it returns the updated record. The source
defaults `delayMs` to 120000 (120s) when the caller omits it. -/
def scheduleRetry (job : Option FailedJob) (now : Nat)
    (delayMs : Nat) : Except (List Char) FailedJob :=
  match job with
  | none => .error ("Job not found".toList)
  | some j =>
    if j.retryCount + 1 ≥ j.maxRetries then
      .ok { j with retryCount := j.retryCount + 1
                   jobStatus := .failed_permanent
                   lastAttemptAt := some now }
    else
      .ok { j with retryCount := j.retryCount + 1
                   nextRetryAt := now + delayMs
                   jobStatus := .pending
                   lastAttemptAt := some now }

/-- C3: rescheduling an existing job increments `retryCount` by one and
transitions to `failed_permanent` exactly when the incremented count
reaches or exceeds `maxRetries`, and otherwise back to `pending` with
`nextRetryAt = now + delayMs`; rescheduling a missing job fails with a
not-found error. -/
theorem schedule_retry_spec :
    (∀ (j : FailedJob) (now delayMs : Nat) (j2 : FailedJob),
      scheduleRetry (some j) now delayMs = .ok j2 →
        j2.retryCount = j.retryCount + 1 ∧
        (j2.jobStatus = .failed_permanent ↔ j.retryCount + 1 ≥ j.maxRetries) ∧
        (j.retryCount + 1 < j.maxRetries →
          j2.jobStatus = .pending ∧ j2.nextRetryAt = now + delayMs)) ∧
    (∀ (j : FailedJob) (now delayMs : Nat),
      (scheduleRetry (some j) now delayMs).isOk = true) ∧
    (∀ now delayMs : Nat,
      scheduleRetry none now delayMs = .error ("Job not found".toList)) := by
  refine ⟨?_, ?_, fun now delayMs => rfl⟩
  · intro j now delayMs j2 heq
    simp only [scheduleRetry] at heq
    by_cases h : j.retryCount + 1 ≥ j.maxRetries
    · rw [if_pos h] at heq
      have hj2 : j2 = { j with retryCount := j.retryCount + 1
                               jobStatus := .failed_permanent
                               lastAttemptAt := some now } := by
        injection heq with h2
        exact h2.symm
      subst hj2
      refine ⟨rfl, by simp [h], ?_⟩
      intro h2
      omega
    · rw [if_neg h] at heq
      have hj2 : j2 = { j with retryCount := j.retryCount + 1
                               nextRetryAt := now + delayMs
                               jobStatus := .pending
                               lastAttemptAt := some now } := by
        injection heq with h2
        exact h2.symm
      subst hj2
      refine ⟨rfl, ?_, fun _ => ⟨rfl, rfl⟩⟩
      constructor
      · intro h2
        simp at h2
      · intro h2
        exact absurd h2 h
  · intro j now delayMs
    simp only [scheduleRetry]
    by_cases h : j.retryCount + 1 ≥ j.maxRetries
    · rw [if_pos h]
      rfl
    · rw [if_neg h]
      rfl

/-- Concrete pending job used by witnesses. -/
def sampleJob : FailedJob :=
  { shop := "shop1".toList, productId := "p1".toList
    productTitle := "P".toList, imageId := "img1".toList
    imageUrl := "u".toList, errorMessage := "boom".toList
    retryCount := 0, maxRetries := 3, nextRetryAt := 0
    lastAttemptAt := none, jobStatus := .pending }

/-- The record `scheduleRetry` produces from `sampleJob` at time 1000. -/
def sampleJobAfter : FailedJob :=
  { sampleJob with retryCount := 1, nextRetryAt := 121000
                   jobStatus := .pending, lastAttemptAt := some 1000 }

/-- Witness for C3 at a concrete job below the retry ceiling. -/
theorem schedule_retry_spec_witness :
    sampleJobAfter.retryCount = sampleJob.retryCount + 1 ∧
    (sampleJobAfter.jobStatus = .failed_permanent ↔
      sampleJob.retryCount + 1 ≥ sampleJob.maxRetries) ∧
    (sampleJob.retryCount + 1 < sampleJob.maxRetries →
      sampleJobAfter.jobStatus = .pending ∧
      sampleJobAfter.nextRetryAt = 1000 + 120000) :=
  schedule_retry_spec.1 sampleJob 1000 120000 sampleJobAfter (by rfl)

/-- C10: a freshly enqueued job has `retryCount = 0`, status pending and
`nextRetryAt = now + 60s`; its `maxRetries` equals the caller-supplied
value when nonzero, but both an absent value and an explicit 0 are
replaced by the default 3 (the JavaScript falsy default), so no job is
ever enqueued with zero allowed retries. -/
theorem add_failed_job_spec :
    ∀ (data : AddFailedJobData) (now : Nat),
      (addFailedJob data now).retryCount = 0 ∧
      (addFailedJob data now).jobStatus = .pending ∧
      (addFailedJob data now).nextRetryAt = now + 60000 ∧
      (∀ m, data.maxRetries = some m → m ≠ 0 →
        (addFailedJob data now).maxRetries = m) ∧
      (data.maxRetries = some 0 → (addFailedJob data now).maxRetries = 3) ∧
      (data.maxRetries = none → (addFailedJob data now).maxRetries = 3) ∧
      (addFailedJob data now).maxRetries ≠ 0 := by
  intro data now
  refine ⟨rfl, rfl, rfl, ?_, ?_, ?_, ?_⟩
  · intro m hm hm0
    simp [addFailedJob, hm, hm0]
  · intro hm
    simp [addFailedJob, hm]
  · intro hm
    simp [addFailedJob, hm]
  · cases hm : data.maxRetries with
    | none => simp [addFailedJob, hm]
    | some m =>
      by_cases h0 : m = 0
      · simp [addFailedJob, hm, h0]
      · simp [addFailedJob, hm, h0]

/-- Concrete enqueue input whose caller-supplied ceiling is 0. -/
def sampleAddData : AddFailedJobData :=
  { shop := "shop1".toList, productId := "p1".toList
    productTitle := "P".toList, imageId := "img1".toList
    imageUrl := "u".toList, errorMessage := "boom".toList
    maxRetries := some 0 }

/-- Witness for C10: a caller-supplied ceiling of 0 becomes 3. -/
theorem add_failed_job_spec_witness :
    (addFailedJob sampleAddData 500).retryCount = 0 ∧
    (addFailedJob sampleAddData 500).nextRetryAt = 500 + 60000 ∧
    (addFailedJob sampleAddData 500).maxRetries = 3 :=
  ⟨(add_failed_job_spec sampleAddData 500).1,
    (add_failed_job_spec sampleAddData 500).2.2.1,
    (add_failed_job_spec sampleAddData 500).2.2.2.2.1 rfl⟩

/-! ## Scan history (analytics.server) -/

/-- Status values of a scan. -/
inductive ScanStatus
  | running
  | completed
  | completed_with_errors
deriving DecidableEq

/-- The `ScanHistory` record; counters default to 0 in the store schema. -/
structure ScanHistory where
  shop : List Char
  startedAt : Nat
  completedAt : Option Nat
  totalProducts : Nat
  totalImages : Nat
  imagesProcessed : Nat
  imagesSkipped : Nat
  imagesFailed : Nat
  scanStatus : ScanStatus
  forceAll : Bool
deriving DecidableEq

/-- Model of `createScanHistory`: a new record with status running,
schema-default counters and no completion timestamp. -/
def createScanHistory (shop : List Char) (forceAll : Bool) (now : Nat) :
    ScanHistory :=
  { shop := shop, startedAt := now, completedAt := none
    totalProducts := 0, totalImages := 0, imagesProcessed := 0
    imagesSkipped := 0, imagesFailed := 0
    scanStatus := .running, forceAll := forceAll }

/-- The final aggregates passed to `completeScanHistory`. -/
structure ScanStatsInput where
  totalProducts : Nat
  totalImages : Nat
  imagesProcessed : Nat
  imagesSkipped : Nat
  imagesFailed : Nat
deriving DecidableEq

/-- Model of `completeScanHistory`: write the aggregates, stamp
`completedAt`, and derive the terminal status from `imagesFailed`. -/
def completeScanHistory (scan : ScanHistory) (stats : ScanStatsInput)
    (now : Nat) : ScanHistory :=
  { scan with
    totalProducts := stats.totalProducts
    totalImages := stats.totalImages
    imagesProcessed := stats.imagesProcessed
    imagesSkipped := stats.imagesSkipped
    imagesFailed := stats.imagesFailed
    completedAt := some now
    scanStatus := if stats.imagesFailed > 0 then .completed_with_errors
      else .completed }

/-- C5: a finalized scan has status `completed_with_errors` iff
`imagesFailed > 0`, its completion timestamp is stamped at finalization,
and a newly created scan is running with no completion timestamp, so for
both operations the completion timestamp is set iff the status is
terminal. -/
theorem scan_completion_status_spec :
    (∀ (shop : List Char) (forceAll : Bool) (now : Nat),
      (createScanHistory shop forceAll now).scanStatus = .running ∧
      (createScanHistory shop forceAll now).completedAt = none ∧
      ((createScanHistory shop forceAll now).completedAt.isSome = true ↔
        ((createScanHistory shop forceAll now).scanStatus = .completed ∨
          (createScanHistory shop forceAll now).scanStatus
            = .completed_with_errors))) ∧
    (∀ (scan : ScanHistory) (stats : ScanStatsInput) (now : Nat),
      (completeScanHistory scan stats now).completedAt = some now ∧
      ((completeScanHistory scan stats now).scanStatus
          = .completed_with_errors ↔ stats.imagesFailed > 0) ∧
      ((completeScanHistory scan stats now).completedAt.isSome = true ↔
        ((completeScanHistory scan stats now).scanStatus = .completed ∨
          (completeScanHistory scan stats now).scanStatus
            = .completed_with_errors))) := by
  constructor
  · intro shop forceAll now
    refine ⟨rfl, rfl, ?_⟩
    simp [createScanHistory]
  · intro scan stats now
    by_cases hf : stats.imagesFailed > 0
    · refine ⟨rfl, ?_, ?_⟩
      · simp [completeScanHistory, hf]
      · simp [completeScanHistory, hf]
    · refine ⟨rfl, ?_, ?_⟩
      · simp [completeScanHistory, hf]
      · simp [completeScanHistory, hf]

/-! ## Substring matching for the error-message regexes -/

/-- Whether the first list starts with the second. -/
def startsWithSeq : List Char → List Char → Bool
  | _, [] => true
  | [], _ :: _ => false
  | h :: hs, n :: ns => (h = n) && startsWithSeq hs ns

/-- Whether the second list occurs contiguously in the first. -/
def containsSeq : List Char → List Char → Bool
  | [], needle => needle.isEmpty
  | c :: cs, needle => startsWithSeq (c :: cs) needle || containsSeq cs needle

/-- Lower-case every character (ASCII case folding as used by the
case-insensitive regexes). -/
def toLowerAll (s : List Char) : List Char :=
  s.map Char.toLower

/-- Model of the test `/rate limit/i.test(msg)`. -/
def rateLimitPattern (msg : List Char) : Bool :=
  containsSeq (toLowerAll msg) ("rate limit".toList)

/-- The in-loop rate-limit classification of `generateAltText`:
`error.status === 429 || /rate limit/i.test(error.message)`. -/
def isRateLimit (status : Option Nat) (msg : List Char) : Bool :=
  status = some 429 || rateLimitPattern msg

/-! ## Caption generator retry loop (gemini.server, `generateAltText`) -/

/-- Result of one provider attempt, as observed by the retry loop:
either raw caption text or a thrown error with an optional HTTP status
and a message. -/
inductive AttemptResult
  | success (raw : List Char)
  | failure (status : Option Nat) (message : List Char)
deriving DecidableEq

def AttemptResult.isFailureB : AttemptResult → Bool
  | .success _ => false
  | .failure _ _ => true

def AttemptResult.failStatus : AttemptResult → Option Nat
  | .success _ => none
  | .failure st _ => st

def AttemptResult.failMsg : AttemptResult → List Char
  | .success _ => []
  | .failure _ msg => msg

/-- Observable outcome of a `generateAltText` call: the sanitized
caption, the rate-limit-specific throw, or the generic throw. -/
inductive GenOutcome
  | ok (alt : List Char)
  | rateLimitExceeded
  | generationFailed (msg : List Char)
deriving DecidableEq

/-- The code after the loop: `if (lastError?.status === 429) throw
"Rate limit exceeded - retry later"` else throw the generic error
carrying `lastError?.message || "Unknown error"`. -/
def finalizeError : Option (Option Nat × List Char) → GenOutcome
  | none =>
    .generationFailed ("Failed to generate alt-text: ".toList
      ++ "Unknown error".toList)
  | some (st, msg) =>
    if st = some 429 then .rateLimitExceeded
    else .generationFailed ("Failed to generate alt-text: ".toList
      ++ (if msg.isEmpty then "Unknown error".toList else msg))

/-- Full observable trace of one `generateAltText` call: the outcome,
the delays awaited between attempts, and the number of provider
attempts made. -/
structure GenTrace where
  outcome : GenOutcome
  waits : List Nat
  attempts : Nat
deriving DecidableEq

/-- The `for (attempt = 0; attempt < maxRetries; attempt++)` loop,
structurally recursive on the remaining iterations
(`fuel = maxRetries - attempt`; the loop exits when fuel is 0, so the
third argument, the accumulated `lastError`, is only read then). On a
failure that is not the last allowed attempt the loop waits — the
backoff-policy delay when the failure is rate-limiting, the linear
`1000 * (attempt + 1)` otherwise — and retries; after the last allowed
attempt it falls through to `finalizeError` without waiting. -/
def genLoopAux (env : Nat → AttemptResult) (maxLength maxRetries : Nat) :
    Nat → Nat → Option (Option Nat × List Char) → GenTrace
  | 0, _, lastErr => { outcome := finalizeError lastErr, waits := [], attempts := 0 }
  | fuel + 1, attempt, _ =>
    match env attempt with
    | .success raw =>
      { outcome := .ok (sanitizeCaption raw maxLength), waits := [], attempts := 1 }
    | .failure st msg =>
      if attempt < maxRetries - 1 then
        let d := if isRateLimit st msg then calculateBackoffDelay attempt
          else 1000 * (attempt + 1)
        let r := genLoopAux env maxLength maxRetries fuel (attempt + 1)
          (some (st, msg))
        { outcome := r.outcome, waits := d :: r.waits, attempts := r.attempts + 1 }
      else
        { outcome := finalizeError (some (st, msg)), waits := [], attempts := 1 }

/-- Model of `generateAltText`, abstracting the provider as an oracle
from attempt index to the attempt's result. -/
def generateAltTextModel (env : Nat → AttemptResult)
    (maxLength maxRetries : Nat) : GenTrace :=
  genLoopAux env maxLength maxRetries maxRetries 0 none


theorem genLoopAux_zero (env : Nat → AttemptResult) (L R attempt : Nat)
    (lastErr : Option (Option Nat × List Char)) :
    genLoopAux env L R 0 attempt lastErr =
      { outcome := finalizeError lastErr, waits := [], attempts := 0 } := rfl

theorem genLoopAux_succ_success (env : Nat → AttemptResult)
    (L R fuel attempt : Nat) (lastErr : Option (Option Nat × List Char))
    (raw : List Char) (henv : env attempt = .success raw) :
    genLoopAux env L R (fuel + 1) attempt lastErr =
      { outcome := .ok (sanitizeCaption raw L), waits := [], attempts := 1 } := by
  simp only [genLoopAux, henv]

theorem genLoopAux_succ_failure (env : Nat → AttemptResult)
    (L R fuel attempt : Nat) (lastErr : Option (Option Nat × List Char))
    (st : Option Nat) (msg : List Char) (henv : env attempt = .failure st msg) :
    genLoopAux env L R (fuel + 1) attempt lastErr =
      if attempt < R - 1 then
        { outcome := (genLoopAux env L R fuel (attempt + 1) (some (st, msg))).outcome
          waits := (if isRateLimit st msg then calculateBackoffDelay attempt
              else 1000 * (attempt + 1))
            :: (genLoopAux env L R fuel (attempt + 1) (some (st, msg))).waits
          attempts := (genLoopAux env L R fuel (attempt + 1) (some (st, msg))).attempts + 1 }
      else
        { outcome := finalizeError (some (st, msg)), waits := [], attempts := 1 } := by
  simp only [genLoopAux, henv]

theorem genLoopAux_exhaust (env : Nat → AttemptResult) (L R : Nat) :
    ∀ (fuel attempt : Nat) (lastErr : Option (Option Nat × List Char)),
    1 ≤ fuel → attempt + fuel = R →
    (∀ i, attempt ≤ i → i < R → (env i).isFailureB = true) →
    (genLoopAux env L R fuel attempt lastErr).outcome =
      finalizeError (some ((env (R - 1)).failStatus, (env (R - 1)).failMsg)) := by
  intro fuel
  induction fuel with
  | zero => intro attempt lastErr h1; omega
  | succ fuel ih =>
    intro attempt lastErr _ hinv hfail
    have hlt : attempt < R := by omega
    have hf := hfail attempt (le_refl attempt) hlt
    cases henv : env attempt with
    | success raw =>
      rw [henv] at hf
      simp [AttemptResult.isFailureB] at hf
    | failure st msg =>
      rw [genLoopAux_succ_failure env L R fuel attempt lastErr st msg henv]
      by_cases hlast : attempt < R - 1
      · rw [if_pos hlast]
        have hfuel : 1 ≤ fuel := by omega
        exact ih (attempt + 1) (some (st, msg)) hfuel (by omega)
          (fun i hi h2 => hfail i (by omega) h2)
      · rw [if_neg hlast]
        have hattempt : attempt = R - 1 := by omega
        rw [← hattempt, henv]
        rfl

/-- Environment in which every attempt fails with no HTTP status and a
message matching the rate-limit pattern. -/
def rateLimitMsgEnv : Nat → AttemptResult :=
  fun _ => .failure none ("rate limit".toList)

/-- Counterexample to C2 as stated: with one allowed attempt and a last
failure carrying no status but a message matching the rate-limit
pattern, the in-loop classifier counts the failure as rate-limiting, yet
the final error is the generic generation failure, not the
rate-limit-specific error (the post-loop check only tests
`lastError?.status === 429`, not the message pattern). -/
theorem generator_final_error_counterexample :
    isRateLimit none ("rate limit".toList) = true ∧
    (generateAltTextModel rateLimitMsgEnv 100 1).outcome ≠ .rateLimitExceeded ∧
    (generateAltTextModel rateLimitMsgEnv 100 1).outcome =
      .generationFailed ("Failed to generate alt-text: rate limit".toList) := by
  refine ⟨by decide, by decide, by decide⟩

/-- C2 (amended): when every attempt fails, the returned error is the
rate-limit-specific one iff the last observed failure carried the
explicit too-many-requests status 429; otherwise it is the generic
generation-failure error carrying the last failure's message (or
"Unknown error" for an empty message). A failure that is rate-limiting
only by message pattern yields the generic error. -/
theorem generator_final_error_amended (env : Nat → AttemptResult) (L R : Nat)
    (hR : 1 ≤ R) (hfail : ∀ i, i < R → (env i).isFailureB = true) :
    ((generateAltTextModel env L R).outcome = .rateLimitExceeded ↔
      (env (R - 1)).failStatus = some 429) ∧
    ((env (R - 1)).failStatus ≠ some 429 →
      (generateAltTextModel env L R).outcome =
        .generationFailed ("Failed to generate alt-text: ".toList ++
          (if (env (R - 1)).failMsg.isEmpty then "Unknown error".toList
           else (env (R - 1)).failMsg))) := by
  have hout : (generateAltTextModel env L R).outcome =
      finalizeError (some ((env (R - 1)).failStatus, (env (R - 1)).failMsg)) :=
    genLoopAux_exhaust env L R R 0 none hR (by omega)
      (fun i _ h2 => hfail i h2)
  have hfe : finalizeError (some ((env (R - 1)).failStatus, (env (R - 1)).failMsg))
      = if (env (R - 1)).failStatus = some 429 then GenOutcome.rateLimitExceeded
        else .generationFailed ("Failed to generate alt-text: ".toList
          ++ (if (env (R - 1)).failMsg.isEmpty then "Unknown error".toList
              else (env (R - 1)).failMsg)) := rfl
  rw [hout, hfe]
  by_cases hst : (env (R - 1)).failStatus = some 429
  · rw [if_pos hst]
    constructor
    · exact ⟨fun _ => hst, fun _ => rfl⟩
    · intro h2
      exact absurd hst h2
  · rw [if_neg hst]
    constructor
    · constructor
      · intro h2
        simp at h2
      · intro h2
        exact absurd h2 hst
    · intro _
      rfl

/-- Environment in which every attempt fails with HTTP status 429. -/
def env429 : Nat → AttemptResult :=
  fun _ => .failure (some 429) ("Too Many Requests".toList)

/-- Witness for the amended C2: three consecutive 429 failures with
three allowed attempts produce the rate-limit-specific error. -/
theorem generator_final_error_amended_witness :
    (((generateAltTextModel env429 100 3).outcome = .rateLimitExceeded ↔
        (env429 2).failStatus = some 429) ∧
      ((env429 2).failStatus ≠ some 429 →
        (generateAltTextModel env429 100 3).outcome =
          .generationFailed ("Failed to generate alt-text: ".toList ++
            (if (env429 2).failMsg.isEmpty then "Unknown error".toList
             else (env429 2).failMsg)))) ∧
    (generateAltTextModel env429 100 3).outcome = .rateLimitExceeded :=
  ⟨generator_final_error_amended env429 100 3 (by decide) (fun i _ => rfl),
    by decide⟩

theorem genLoopAux_waits_spec (env : Nat → AttemptResult) (L R : Nat) :
    ∀ (fuel attempt : Nat) (lastErr : Option (Option Nat × List Char)),
    attempt + fuel = R →
    (genLoopAux env L R fuel attempt lastErr).attempts ≤ fuel ∧
    (genLoopAux env L R fuel attempt lastErr).waits.length ≤ fuel - 1 ∧
    (1 ≤ fuel → (genLoopAux env L R fuel attempt lastErr).waits.length + 1 =
      (genLoopAux env L R fuel attempt lastErr).attempts) ∧
    (∀ j (h : j < (genLoopAux env L R fuel attempt lastErr).waits.length),
      (env (attempt + j)).isFailureB = true ∧
      (genLoopAux env L R fuel attempt lastErr).waits.get ⟨j, h⟩ =
        (if isRateLimit (env (attempt + j)).failStatus
            (env (attempt + j)).failMsg
         then calculateBackoffDelay (attempt + j)
         else 1000 * (attempt + j + 1))) := by
  intro fuel
  induction fuel with
  | zero =>
    intro attempt lastErr _
    rw [genLoopAux_zero]
    refine ⟨by simp, by simp, by omega, ?_⟩
    intro j h
    simp at h
  | succ fuel ih =>
    intro attempt lastErr hinv
    cases henv : env attempt with
    | success raw =>
      rw [genLoopAux_succ_success env L R fuel attempt lastErr raw henv]
      refine ⟨by simp, by simp, by simp, ?_⟩
      intro j h
      simp at h
    | failure st msg =>
      rw [genLoopAux_succ_failure env L R fuel attempt lastErr st msg henv]
      by_cases hlast : attempt < R - 1
      · rw [if_pos hlast]
        have hfuel : 1 ≤ fuel := by omega
        obtain ⟨iha, ihl, ihe, ihv⟩ := ih (attempt + 1) (some (st, msg)) (by omega)
        refine ⟨by simpa using Nat.add_le_add_right iha 1, ?_, ?_, ?_⟩
        · simp only [List.length_cons]
          omega
        · intro _
          simp only [List.length_cons]
          omega
        · intro j h
          cases j with
          | zero =>
            have hz : env (attempt + 0) = AttemptResult.failure st msg := henv
            constructor
            · rw [hz]
              rfl
            · show (if isRateLimit st msg then calculateBackoffDelay attempt
                  else 1000 * (attempt + 1)) = _
              rw [hz]
              rfl
          | succ j =>
            have h2 : j < (genLoopAux env L R fuel (attempt + 1)
                (some (st, msg))).waits.length := by
              simpa using Nat.lt_of_succ_lt_succ (by simpa using h)
            obtain ⟨hfj, hvj⟩ := ihv j h2
            constructor
            · have harith : attempt + (j + 1) = attempt + 1 + j := by omega
              rw [harith]
              exact hfj
            · have harith : attempt + (j + 1) = attempt + 1 + j := by omega
              show (genLoopAux env L R fuel (attempt + 1)
                  (some (st, msg))).waits.get ⟨j, h2⟩ = _
              rw [harith, hvj]
      · rw [if_neg hlast]
        refine ⟨by simp, by simp, by simp, ?_⟩
        intro j h
        simp at h

/-- C7: within one generator call with max-retry count R at most R
provider attempts are made; a wait occurs exactly after each failed
attempt that is not the last one made (so there are attempts − 1 waits
and at most R − 1), and the wait after attempt i is the backoff-policy
delay when that failure is rate-limiting and the linear 1000·(i+1)
otherwise. -/
theorem generator_retry_budget_spec (env : Nat → AttemptResult) (L R : Nat) :
    (generateAltTextModel env L R).attempts ≤ R ∧
    (generateAltTextModel env L R).waits.length ≤ R - 1 ∧
    (1 ≤ R → (generateAltTextModel env L R).waits.length + 1 =
      (generateAltTextModel env L R).attempts) ∧
    (∀ j (h : j < (generateAltTextModel env L R).waits.length),
      (env j).isFailureB = true ∧
      (generateAltTextModel env L R).waits.get ⟨j, h⟩ =
        (if isRateLimit (env j).failStatus (env j).failMsg
         then calculateBackoffDelay j else 1000 * (j + 1))) := by
  obtain ⟨ha, hl, he, hv⟩ := genLoopAux_waits_spec env L R R 0 none (by omega)
  refine ⟨ha, hl, he, ?_⟩
  intro j h
  have h2 := hv j h
  simpa using h2

/-- Witness for C7: three consecutive 429 failures with three allowed
attempts make three attempts, wait twice, and the first wait is the
backoff-policy delay for attempt 0. -/
theorem generator_retry_budget_spec_witness :
    ((generateAltTextModel env429 100 3).waits.length + 1 =
      (generateAltTextModel env429 100 3).attempts) ∧
    (env429 0).isFailureB = true ∧
    (generateAltTextModel env429 100 3).waits.get ⟨0, by decide⟩ =
      (if isRateLimit (env429 0).failStatus (env429 0).failMsg
       then calculateBackoffDelay 0 else 1000 * (0 + 1)) :=
  ⟨(generator_retry_budget_spec env429 100 3).2.2.1 (by decide),
    ((generator_retry_budget_spec env429 100 3).2.2.2 0 (by decide)).1,
    ((generator_retry_budget_spec env429 100 3).2.2.2 0 (by decide)).2⟩

/-! ## Retryable-error classifier (retry.server, `isRetryableError`) -/

/-- Model of `isRetryableError`: the message matches one of the
retryable patterns (`/rate limit/i`, `/429/`, `/timeout/i`,
`/ECONNRESET/`, `/ETIMEDOUT/`, `/network/i`). -/
def isRetryableError (msg : List Char) : Bool :=
  containsSeq (toLowerAll msg) ("rate limit".toList) ||
  containsSeq msg ("429".toList) ||
  containsSeq (toLowerAll msg) ("timeout".toList) ||
  containsSeq msg ("ECONNRESET".toList) ||
  containsSeq msg ("ETIMEDOUT".toList) ||
  containsSeq (toLowerAll msg) ("network".toList)

/-! ## Scan orchestrator (the scan action route) -/

/-- One media item of a product: its id, the image url when the media
item actually carries an image, and the current alt text. -/
structure MediaImage where
  id : List Char
  image : Option (List Char)
  alt : Option (List Char)
deriving DecidableEq

/-- One product with its media list. -/
structure ProductNode where
  id : List Char
  title : List Char
  media : List MediaImage
deriving DecidableEq

/-- Outcome of the awaited calls for one processed image: either the
generator returned a caption and the write-back mutation (reached only
for a non-empty caption) reported its `userErrors` list, or some call in
the try block threw an error with a message. -/
inductive ImageOutcome
  | generated (caption : List Char) (userErrors : List (List Char))
  | thrown (msg : List Char)
deriving DecidableEq

/-- Status of a `ProcessedImage` record. -/
inductive RecordStatus
  | success
  | failed
  | skipped
deriving DecidableEq

/-- The `ProcessedImage` record written by `recordImageProcessing`. -/
structure ProcessedImageRec where
  productId : List Char
  productTitle : List Char
  imageId : List Char
  imageUrl : List Char
  oldAltText : Option (List Char)
  newAltText : List Char
  recStatus : RecordStatus
  errorMessage : Option (List Char)
deriving DecidableEq

/-- The state threaded through the action's loops: the four counters,
the `ProcessedImage` records written so far and the `FailedJob` enqueue
requests issued so far. -/
structure ScanState where
  totalImages : Nat
  missingAltText : Nat
  updatedCount : Nat
  errorCount : Nat
  records : List ProcessedImageRec
  jobs : List AddFailedJobData
deriving DecidableEq

/-- The truthiness test `currentAltText && currentAltText.trim() !== ""`. -/
def hasNonEmptyAlt (alt : Option (List Char)) : Bool :=
  match alt with
  | none => false
  | some a => !(trimChars a).isEmpty

/-- Model of the per-image body of the action loop. A media item with no
attached image is filtered out (no effect). Otherwise the total counter
is bumped; an image with existing non-blank alt text is skipped unless
`forceAll`; otherwise the missing counter is bumped and the generator is
consulted: an empty caption records a failure (and enqueues a job when
auto-retry is on); a non-empty caption reaches the mutation, whose
non-empty `userErrors` only bump the failed counter, while success bumps
the updated counter and records a success; a thrown error records a
failure and enqueues a job when auto-retry is on and the error is
classified retryable. -/
def processImage (shop : List Char) (autoRetry : Bool) (maxRetries : Nat)
    (env : List Char → ImageOutcome) (forceAll : Bool) (p : ProductNode)
    (st : ScanState) (m : MediaImage) : ScanState :=
  match m.image with
  | none => st
  | some url =>
    let st1 := { st with totalImages := st.totalImages + 1 }
    if !forceAll && hasNonEmptyAlt m.alt then st1
    else
      let st2 := { st1 with missingAltText := st1.missingAltText + 1 }
      match env m.id with
      | .generated caption userErrors =>
        if caption.isEmpty then
          let st3 := { st2 with
            errorCount := st2.errorCount + 1
            records := st2.records ++ [{
              productId := p.id, productTitle := p.title, imageId := m.id
              imageUrl := url, oldAltText := m.alt, newAltText := []
              recStatus := .failed
              errorMessage := some ("No alt-text generated".toList) }] }
          if autoRetry then
            { st3 with jobs := st3.jobs ++ [{
                shop := shop, productId := p.id, productTitle := p.title
                imageId := m.id, imageUrl := url
                errorMessage := "No alt-text generated".toList
                maxRetries := some maxRetries }] }
          else st3
        else if userErrors.length > 0 then
          { st2 with errorCount := st2.errorCount + 1 }
        else
          { st2 with
            updatedCount := st2.updatedCount + 1
            records := st2.records ++ [{
              productId := p.id, productTitle := p.title, imageId := m.id
              imageUrl := url, oldAltText := m.alt, newAltText := caption
              recStatus := .success, errorMessage := none }] }
      | .thrown msg =>
        let st3 := { st2 with
          errorCount := st2.errorCount + 1
          records := st2.records ++ [{
            productId := p.id, productTitle := p.title, imageId := m.id
            imageUrl := url, oldAltText := m.alt, newAltText := []
            recStatus := .failed, errorMessage := some msg }] }
        if autoRetry && isRetryableError msg then
          { st3 with jobs := st3.jobs ++ [{
              shop := shop, productId := p.id, productTitle := p.title
              imageId := m.id, imageUrl := url, errorMessage := msg
              maxRetries := some maxRetries }] }
        else st3

/-- The per-product loop body. -/
def processProduct (shop : List Char) (autoRetry : Bool) (maxRetries : Nat)
    (env : List Char → ImageOutcome) (forceAll : Bool)
    (st : ScanState) (p : ProductNode) : ScanState :=
  p.media.foldl (processImage shop autoRetry maxRetries env forceAll p) st

/-- Counters and stores before the loop starts. -/
def initialScanState : ScanState :=
  { totalImages := 0, missingAltText := 0, updatedCount := 0
    errorCount := 0, records := [], jobs := [] }

/-- The whole product/image iteration of the action. -/
def runScanLoop (shop : List Char) (autoRetry : Bool) (maxRetries : Nat)
    (env : List Char → ImageOutcome) (forceAll : Bool)
    (products : List ProductNode) : ScanState :=
  products.foldl (processProduct shop autoRetry maxRetries env forceAll)
    initialScanState

/-- The whole action: create the scan record, run the loop, and
finalize with `completeScanHistory`, passing
`imagesSkipped := totalImages - missingAltText`. -/
def scanAction (shop : List Char) (autoRetry : Bool) (maxRetries : Nat)
    (env : List Char → ImageOutcome) (forceAll : Bool)
    (products : List ProductNode) (now : Nat) : ScanHistory :=
  let st := runScanLoop shop autoRetry maxRetries env forceAll products
  completeScanHistory (createScanHistory shop forceAll now)
    { totalProducts := products.length
      totalImages := st.totalImages
      imagesProcessed := st.updatedCount
      imagesSkipped := st.totalImages - st.missingAltText
      imagesFailed := st.errorCount } now

/-- Modelled from the spec: whether an image is counted as missing alt
text — it carries an image and either the scan is forced or the alt
text is absent/blank. -/
def missingPred (forceAll : Bool) (m : MediaImage) : Bool :=
  m.image.isSome && (forceAll || !hasNonEmptyAlt m.alt)

def imgCount (m : MediaImage) : Nat :=
  if m.image.isSome then 1 else 0

def missCount (forceAll : Bool) (m : MediaImage) : Nat :=
  if missingPred forceAll m then 1 else 0

theorem processImage_counts (shop : List Char) (autoRetry : Bool)
    (maxRetries : Nat) (env : List Char → ImageOutcome) (forceAll : Bool)
    (p : ProductNode) (st : ScanState) (m : MediaImage) :
    (processImage shop autoRetry maxRetries env forceAll p st m).totalImages
      = st.totalImages + imgCount m ∧
    (processImage shop autoRetry maxRetries env forceAll p st m).missingAltText
      = st.missingAltText + missCount forceAll m ∧
    (processImage shop autoRetry maxRetries env forceAll p st m).updatedCount
        + (processImage shop autoRetry maxRetries env forceAll p st m).errorCount
      = st.updatedCount + st.errorCount + missCount forceAll m := by
  cases him : m.image with
  | none =>
    simp [processImage, him, imgCount, missCount, missingPred]
  | some url =>
    by_cases hskip : (!forceAll && hasNonEmptyAlt m.alt) = true
    · have hmp : missingPred forceAll m = false := by
        simp only [missingPred, him, Option.isSome_some, Bool.true_and]
        revert hskip
        cases forceAll <;> cases hasNonEmptyAlt m.alt <;> simp
      simp [processImage, him, hskip, imgCount, missCount, hmp]
    · have hmp : missingPred forceAll m = true := by
        simp only [missingPred, him, Option.isSome_some, Bool.true_and]
        revert hskip
        cases forceAll <;> cases hasNonEmptyAlt m.alt <;> simp
      cases henv : env m.id with
      | generated caption userErrors =>
        by_cases hcap : caption.isEmpty = true
        · cases autoRetry <;>
            simp [processImage, him, hskip, henv, hcap, imgCount, missCount, hmp] <;>
            omega
        · by_cases hue : userErrors.length > 0
          · simp [processImage, him, hskip, henv, hcap, hue, imgCount, missCount, hmp]
            omega
          · simp [processImage, him, hskip, henv, hcap, hue, imgCount, missCount, hmp]
            omega
      | thrown msg =>
        by_cases hj : (autoRetry && isRetryableError msg) = true <;>
          simp [processImage, him, hskip, henv, hj, imgCount, missCount, hmp] <;>
          omega

/-- Modelled from the spec: the number of images (media with an
attached image) in the catalog. -/
def totalImagesCount (products : List ProductNode) : Nat :=
  (products.map (fun p => (p.media.map imgCount).sum)).sum

/-- Modelled from the spec: the number of images lacking non-empty alt
text (or all images, when the scan is forced). -/
def missingAltTextCount (forceAll : Bool) (products : List ProductNode) : Nat :=
  (products.map (fun p => (p.media.map (missCount forceAll)).sum)).sum

theorem foldl_processImage_counts (shop : List Char) (autoRetry : Bool)
    (maxRetries : Nat) (env : List Char → ImageOutcome) (forceAll : Bool)
    (p : ProductNode) :
    ∀ (ms : List MediaImage) (st : ScanState),
    (ms.foldl (processImage shop autoRetry maxRetries env forceAll p) st).totalImages
      = st.totalImages + (ms.map imgCount).sum ∧
    (ms.foldl (processImage shop autoRetry maxRetries env forceAll p) st).missingAltText
      = st.missingAltText + (ms.map (missCount forceAll)).sum ∧
    (ms.foldl (processImage shop autoRetry maxRetries env forceAll p) st).updatedCount
        + (ms.foldl (processImage shop autoRetry maxRetries env forceAll p) st).errorCount
      = st.updatedCount + st.errorCount + (ms.map (missCount forceAll)).sum := by
  intro ms
  induction ms with
  | nil => intro st; simp
  | cons m ms ih =>
    intro st
    obtain ⟨h1, h2, h3⟩ := processImage_counts shop autoRetry maxRetries env
      forceAll p st m
    obtain ⟨g1, g2, g3⟩ := ih (processImage shop autoRetry maxRetries env
      forceAll p st m)
    simp only [List.foldl_cons, List.map_cons, List.sum_cons]
    refine ⟨?_, ?_, ?_⟩
    · rw [g1, h1]; omega
    · rw [g2, h2]; omega
    · rw [g3, h3]; omega

theorem runScanLoop_counts (shop : List Char) (autoRetry : Bool)
    (maxRetries : Nat) (env : List Char → ImageOutcome) (forceAll : Bool)
    (products : List ProductNode) :
    (runScanLoop shop autoRetry maxRetries env forceAll products).totalImages
      = totalImagesCount products ∧
    (runScanLoop shop autoRetry maxRetries env forceAll products).missingAltText
      = missingAltTextCount forceAll products ∧
    (runScanLoop shop autoRetry maxRetries env forceAll products).updatedCount
        + (runScanLoop shop autoRetry maxRetries env forceAll products).errorCount
      = missingAltTextCount forceAll products := by
  suffices h : ∀ (ps : List ProductNode) (st : ScanState),
      (ps.foldl (processProduct shop autoRetry maxRetries env forceAll) st).totalImages
        = st.totalImages + totalImagesCount ps ∧
      (ps.foldl (processProduct shop autoRetry maxRetries env forceAll) st).missingAltText
        = st.missingAltText + missingAltTextCount forceAll ps ∧
      (ps.foldl (processProduct shop autoRetry maxRetries env forceAll) st).updatedCount
          + (ps.foldl (processProduct shop autoRetry maxRetries env forceAll) st).errorCount
        = st.updatedCount + st.errorCount + missingAltTextCount forceAll ps by
    obtain ⟨h1, h2, h3⟩ := h products initialScanState
    refine ⟨?_, ?_, ?_⟩
    · rw [runScanLoop, h1]; simp [initialScanState]
    · rw [runScanLoop, h2]; simp [initialScanState]
    · rw [runScanLoop, h3]; simp [initialScanState]
  intro ps
  induction ps with
  | nil =>
    intro st
    simp [totalImagesCount, missingAltTextCount]
  | cons p ps ih =>
    intro st
    obtain ⟨h1, h2, h3⟩ := foldl_processImage_counts shop autoRetry maxRetries
      env forceAll p p.media st
    obtain ⟨g1, g2, g3⟩ := ih (processProduct shop autoRetry maxRetries env
      forceAll st p)
    simp only [List.foldl_cons, totalImagesCount, missingAltTextCount,
      List.map_cons, List.sum_cons] at *
    refine ⟨?_, ?_, ?_⟩
    · rw [g1]
      show _ = st.totalImages + ((p.media.map imgCount).sum + _)
      rw [show (processProduct shop autoRetry maxRetries env forceAll st p)
          = p.media.foldl (processImage shop autoRetry maxRetries env forceAll p) st
        from rfl, h1]
      omega
    · rw [g2]
      show _ = st.missingAltText + ((p.media.map (missCount forceAll)).sum + _)
      rw [show (processProduct shop autoRetry maxRetries env forceAll st p)
          = p.media.foldl (processImage shop autoRetry maxRetries env forceAll p) st
        from rfl, h2]
      omega
    · rw [g3]
      show _ = st.updatedCount + st.errorCount
          + ((p.media.map (missCount forceAll)).sum + _)
      rw [show (processProduct shop autoRetry maxRetries env forceAll st p)
          = p.media.foldl (processImage shop autoRetry maxRetries env forceAll p) st
        from rfl]
      rw [h3]
      omega

theorem missCount_le_imgCount (forceAll : Bool) (m : MediaImage) :
    missCount forceAll m ≤ imgCount m := by
  unfold missCount imgCount missingPred
  cases him : m.image.isSome <;> cases hf : forceAll <;>
    cases ha : hasNonEmptyAlt m.alt <;> simp [him, ha]

theorem missingAltTextCount_le_total (forceAll : Bool)
    (products : List ProductNode) :
    missingAltTextCount forceAll products ≤ totalImagesCount products := by
  unfold missingAltTextCount totalImagesCount
  induction products with
  | nil => simp
  | cons p ps ih =>
    simp only [List.map_cons, List.sum_cons]
    have hp : (p.media.map (missCount forceAll)).sum ≤ (p.media.map imgCount).sum := by
      induction p.media with
      | nil => simp
      | cons m ms ihm =>
        simp only [List.map_cons, List.sum_cons]
        have := missCount_le_imgCount forceAll m
        omega
    omega

/-- C6: for every completed scan, skipped + processed + failed is at
most the total image count, skipped equals total − missingAltTextCount
(images lacking non-empty alt text, or all images when forced), and a
skipped image only bumps the total counter — it leaves the records and
the job queue untouched. -/
theorem scan_aggregate_invariant (shop : List Char) (autoRetry : Bool)
    (maxRetries : Nat) (env : List Char → ImageOutcome) (forceAll : Bool)
    (products : List ProductNode) (now : Nat) :
    (scanAction shop autoRetry maxRetries env forceAll products now).imagesSkipped
        + (scanAction shop autoRetry maxRetries env forceAll products now).imagesProcessed
        + (scanAction shop autoRetry maxRetries env forceAll products now).imagesFailed
      ≤ (scanAction shop autoRetry maxRetries env forceAll products now).totalImages ∧
    (scanAction shop autoRetry maxRetries env forceAll products now).imagesSkipped
      = (scanAction shop autoRetry maxRetries env forceAll products now).totalImages
        - missingAltTextCount forceAll products ∧
    (∀ (p : ProductNode) (st : ScanState) (m : MediaImage),
      m.image.isSome = true → missingPred forceAll m = false →
      processImage shop autoRetry maxRetries env forceAll p st m
        = { st with totalImages := st.totalImages + 1 }) := by
  have e1 : (scanAction shop autoRetry maxRetries env forceAll products now).imagesSkipped
      = (runScanLoop shop autoRetry maxRetries env forceAll products).totalImages
        - (runScanLoop shop autoRetry maxRetries env forceAll products).missingAltText := rfl
  have e2 : (scanAction shop autoRetry maxRetries env forceAll products now).imagesProcessed
      = (runScanLoop shop autoRetry maxRetries env forceAll products).updatedCount := rfl
  have e3 : (scanAction shop autoRetry maxRetries env forceAll products now).imagesFailed
      = (runScanLoop shop autoRetry maxRetries env forceAll products).errorCount := rfl
  have e4 : (scanAction shop autoRetry maxRetries env forceAll products now).totalImages
      = (runScanLoop shop autoRetry maxRetries env forceAll products).totalImages := rfl
  obtain ⟨ht, hm, hue⟩ := runScanLoop_counts shop autoRetry maxRetries env
    forceAll products
  have hle := missingAltTextCount_le_total forceAll products
  refine ⟨?_, ?_, ?_⟩
  · rw [e1, e2, e3, e4]
    omega
  · rw [e1, e4, hm]
  · intro p st m him hmp
    cases himg : m.image with
    | none => rw [himg] at him; simp at him
    | some url =>
      have hskip : (!forceAll && hasNonEmptyAlt m.alt) = true := by
        unfold missingPred at hmp
        rw [himg] at hmp
        revert hmp
        cases forceAll <;> cases ha : hasNonEmptyAlt m.alt <;> simp [ha]
      simp [processImage, himg, hskip]

/-- Media item with a missing alt text. -/
def sampleMediaMissing : MediaImage :=
  { id := "m1".toList, image := some ("urlA".toList), alt := none }

/-- Media item whose alt text is already present. -/
def sampleMediaSkipped : MediaImage :=
  { id := "m2".toList, image := some ("urlB".toList)
    alt := some ("existing".toList) }

/-- Two-product catalog: one image missing alt text, one with alt text. -/
def sampleProducts : List ProductNode :=
  [ { id := "p1".toList, title := "A".toList, media := [sampleMediaMissing] },
    { id := "p2".toList, title := "B".toList, media := [sampleMediaSkipped] } ]

/-- Provider/platform oracle: caption generated, no user errors. -/
def sampleEnv : List Char → ImageOutcome :=
  fun _ => .generated ("Nice caption".toList) []

/-- Witness for C6 on the two-product catalog: skipping a clean image
only bumps the total counter, and the aggregates hold. -/
theorem scan_aggregate_invariant_witness :
    ((scanAction ("s".toList) true 3 sampleEnv false sampleProducts 7).imagesSkipped
        + (scanAction ("s".toList) true 3 sampleEnv false sampleProducts 7).imagesProcessed
        + (scanAction ("s".toList) true 3 sampleEnv false sampleProducts 7).imagesFailed
      ≤ (scanAction ("s".toList) true 3 sampleEnv false sampleProducts 7).totalImages) ∧
    (processImage ("s".toList) true 3 sampleEnv false
        { id := "p2".toList, title := "B".toList, media := [sampleMediaSkipped] }
        initialScanState sampleMediaSkipped
      = { initialScanState with
          totalImages := initialScanState.totalImages + 1 }) :=
  ⟨(scan_aggregate_invariant ("s".toList) true 3 sampleEnv false
      sampleProducts 7).1,
    (scan_aggregate_invariant ("s".toList) true 3 sampleEnv false
      sampleProducts 7).2.2
      { id := "p2".toList, title := "B".toList, media := [sampleMediaSkipped] }
      initialScanState sampleMediaSkipped (by decide) (by decide)⟩

/-- C8: when the write-back mutation reports a non-empty `userErrors`
list, the failed counter is bumped but no `ProcessedImage` record is
written and no `FailedJob` is enqueued — the state change is exactly the
three counters; by contrast, the thrown-error path and the
empty-caption path each write one `ProcessedImage` record. -/
theorem user_errors_frame_effect :
    (∀ (shop : List Char) (autoRetry : Bool) (maxRetries : Nat)
        (env : List Char → ImageOutcome) (forceAll : Bool) (p : ProductNode)
        (st : ScanState) (m : MediaImage) (url caption : List Char)
        (ues : List (List Char)),
      m.image = some url → missingPred forceAll m = true →
      env m.id = .generated caption ues → caption.isEmpty = false →
      0 < ues.length →
      processImage shop autoRetry maxRetries env forceAll p st m
        = { st with totalImages := st.totalImages + 1
                    missingAltText := st.missingAltText + 1
                    errorCount := st.errorCount + 1 }) ∧
    (∀ (shop : List Char) (autoRetry : Bool) (maxRetries : Nat)
        (env : List Char → ImageOutcome) (forceAll : Bool) (p : ProductNode)
        (st : ScanState) (m : MediaImage) (url msg : List Char),
      m.image = some url → missingPred forceAll m = true →
      env m.id = .thrown msg →
      (processImage shop autoRetry maxRetries env forceAll p st m).records.length
        = st.records.length + 1) ∧
    (∀ (shop : List Char) (autoRetry : Bool) (maxRetries : Nat)
        (env : List Char → ImageOutcome) (forceAll : Bool) (p : ProductNode)
        (st : ScanState) (m : MediaImage) (url caption : List Char)
        (ues : List (List Char)),
      m.image = some url → missingPred forceAll m = true →
      env m.id = .generated caption ues → caption.isEmpty = true →
      (processImage shop autoRetry maxRetries env forceAll p st m).records.length
        = st.records.length + 1) := by
  have hskip_of : ∀ (forceAll : Bool) (m : MediaImage) (url : List Char),
      m.image = some url → missingPred forceAll m = true →
      (!forceAll && hasNonEmptyAlt m.alt) = false := by
    intro forceAll m url him hmp
    unfold missingPred at hmp
    rw [him] at hmp
    revert hmp
    cases forceAll <;> cases ha : hasNonEmptyAlt m.alt <;> simp [ha]
  refine ⟨?_, ?_, ?_⟩
  · intro shop autoRetry maxRetries env forceAll p st m url caption ues
      him hmp henv hcap hue
    have hskip := hskip_of forceAll m url him hmp
    simp [processImage, him, hskip, henv, hcap, hue]
  · intro shop autoRetry maxRetries env forceAll p st m url msg him hmp henv
    have hskip := hskip_of forceAll m url him hmp
    by_cases hj : (autoRetry && isRetryableError msg) = true <;>
      simp [processImage, him, hskip, henv, hj]
  · intro shop autoRetry maxRetries env forceAll p st m url caption ues
      him hmp henv hcap
    have hskip := hskip_of forceAll m url him hmp
    cases autoRetry <;>
      simp [processImage, him, hskip, henv, hcap]

/-- Oracle: caption generated but the mutation reports one user error. -/
def sampleEnvUserErrors : List Char → ImageOutcome :=
  fun _ => .generated ("Nice caption".toList) [("field error".toList)]

/-- Witness for C8 at a concrete image whose write-back reports a user
error: only the three counters change. -/
theorem user_errors_frame_effect_witness :
    processImage ("s".toList) true 3 sampleEnvUserErrors false
        { id := "p1".toList, title := "A".toList, media := [sampleMediaMissing] }
        initialScanState sampleMediaMissing
      = { initialScanState with
          totalImages := initialScanState.totalImages + 1
          missingAltText := initialScanState.missingAltText + 1
          errorCount := initialScanState.errorCount + 1 } :=
  user_errors_frame_effect.1 ("s".toList) true 3 sampleEnvUserErrors false
    { id := "p1".toList, title := "A".toList, media := [sampleMediaMissing] }
    initialScanState sampleMediaMissing ("urlA".toList) ("Nice caption".toList)
    [("field error".toList)] (by decide) (by decide) (by decide) (by decide)
    (by decide)
